import Mathlib

/-!
Verification of the `httpconnect` CONNECT-tunnel middleware.

The Go sources are shallowly embedded: pure helpers from the Go standard
library that the handler relies on (`net.SplitHostPort`, `strconv.Atoi`,
`strings.Split`) are translated as executable Lean functions over `List Char`;
the handler itself (`New`, the option setters, `ServeHTTP`, `portAllowed`,
`intercept`) is translated with its observable actions reified as an event
trace, and the concurrent relay phase of `intercept` is modelled as a small
transition system over the two copy tasks and the `sync.WaitGroup`.
-/

namespace HttpConnect

/-! ## Go standard-library helpers -/

/-- Index of the last occurrence of `c` in `s` (Go `last(hostPort, ':')`,
with `none` for Go's `-1`). -/
def lastIndexOf : List Char → Char → Option Nat
  | [], _ => none
  | a :: rest, c =>
    match lastIndexOf rest c with
    | some i => some (i + 1)
    | none => if a = c then some 0 else none

/-- Index of the first occurrence of `c` in `s` (Go `byteIndex`, with `none`
for Go's `-1`). -/
def indexOfChar : List Char → Char → Option Nat
  | [], _ => none
  | a :: rest, c => if a = c then some 0 else (indexOfChar rest c).map (· + 1)

/-- Go `strings.Split(csv, ",")`: split on every comma; the empty string
yields one empty field. -/
def splitOnComma : List Char → List (List Char)
  | [] => [[]]
  | c :: rest =>
    if c = ',' then [] :: splitOnComma rest
    else
      match splitOnComma rest with
      | [] => [[c]]
      | fld :: flds => (c :: fld) :: flds

/-- Decimal digit value of a character, `none` if not a digit. -/
def digitVal (c : Char) : Option Nat :=
  if '0' ≤ c ∧ c ≤ '9' then some (c.toNat - '0'.toNat) else none

/-- Accumulate decimal digits; `none` on the first non-digit. -/
def parseNatDigitsAux : List Char → Nat → Option Nat
  | [], acc => some acc
  | c :: rest, acc =>
    match digitVal c with
    | none => none
    | some d => parseNatDigitsAux rest (acc * 10 + d)

/-- Parse a non-empty all-digit string as a natural number. -/
def parseNatDigits : List Char → Option Nat
  | [] => none
  | s => parseNatDigitsAux s 0

/-- Go `strconv.Atoi`: optional single leading sign, then one or more decimal
digits; syntax error otherwise; range error outside the 64-bit int range. -/
def goAtoi (s : List Char) : Except String Int :=
  match s with
  | [] => Except.error "invalid syntax"
  | c :: rest =>
    let neg : Bool := c = '-'
    let digits : List Char := if c = '-' ∨ c = '+' then rest else s
    match parseNatDigits digits with
    | none => Except.error "invalid syntax"
    | some n =>
      if neg then
        if n ≤ 2 ^ 63 then Except.ok (-(n : Int)) else Except.error "value out of range"
      else
        if n ≤ 2 ^ 63 - 1 then Except.ok (n : Int) else Except.error "value out of range"

/-- Go `net.SplitHostPort`: the port starts after the last colon; a leading
bracket delimits an IPv6 host; stray brackets or extra colons are errors. -/
def splitHostPort (hostPort : List Char) : Except String (List Char × List Char) :=
  match lastIndexOf hostPort ':' with
  | none => Except.error "missing port in address"
  | some i =>
    match hostPort with
    | [] => Except.error "missing port in address"
    | c0 :: _ =>
      if c0 = '[' then
        match indexOfChar hostPort ']' with
        | none => Except.error "missing closing bracket in address"
        | some e =>
          if e + 1 = hostPort.length then Except.error "missing port in address"
          else if e + 1 = i then
            if (hostPort.drop 1).contains '[' then
              Except.error "unexpected open bracket in address"
            else if (hostPort.drop (e + 1)).contains ']' then
              Except.error "unexpected close bracket in address"
            else Except.ok ((hostPort.drop 1).take (e - 1), hostPort.drop (i + 1))
          else if hostPort.getD (e + 1) ' ' = ':' then
            Except.error "too many colons in address"
          else Except.error "missing port in address"
      else
        if (hostPort.take i).contains ':' then Except.error "too many colons in address"
        else if hostPort.contains '[' then Except.error "unexpected open bracket in address"
        else if hostPort.contains ']' then Except.error "unexpected close bracket in address"
        else Except.ok (hostPort.take i, hostPort.drop (i + 1))

/-! ## Handler construction (`HTTPConnectHandler`, option setters, `New`) -/

/-- The handler struct. `next` models the `http.Handler` pointer (with `none`
for Go `nil`); `idleTimeout` is the `time.Duration` in nanoseconds;
`allowedPorts` is the allow-list of destination ports (Go `[]int`). -/
structure HTTPConnectHandler where
  next : Option Unit
  idleTimeout : Int
  allowedPorts : List Int
deriving DecidableEq, Repr

/-- A functional option: mutates the handler under construction or fails. -/
def OptSetter := HTTPConnectHandler → Except String HTTPConnectHandler

/-- Go `IdleTimeoutSetter`. -/
def IdleTimeoutSetter (i : Int) : OptSetter :=
  fun f => Except.ok { f with idleTimeout := i }

/-- Go `AllowedPorts`: install the given integer list as the allow-list. -/
def AllowedPorts (ports : List Int) : OptSetter :=
  fun f => Except.ok { f with allowedPorts := ports }

/-- The loop body of Go `AllowedPortsFromCSV`: convert each field with
`strconv.Atoi`, returning the first conversion error. -/
def parsePortFields : List (List Char) → Except String (List Int)
  | [] => Except.ok []
  | fld :: rest =>
    match goAtoi fld with
    | Except.error e => Except.error e
    | Except.ok p =>
      match parsePortFields rest with
      | Except.error e => Except.error e
      | Except.ok ps => Except.ok (p :: ps)

/-- Go `AllowedPortsFromCSV`: split the string on commas and convert every
field with `strconv.Atoi`, failing on the first non-numeric field. -/
def AllowedPortsFromCSV (csv : List Char) : OptSetter :=
  fun f =>
    match parsePortFields (splitOnComma csv) with
    | Except.error e => Except.error e
    | Except.ok ports => Except.ok { f with allowedPorts := ports }

/-- The setter loop of Go `New`: apply each setter in order, returning the
first error. -/
def applySetters : HTTPConnectHandler → List OptSetter → Except String HTTPConnectHandler
  | f, [] => Except.ok f
  | f, s :: rest =>
    match s f with
    | Except.error e => Except.error e
    | Except.ok f2 => applySetters f2 rest

/-- Go `New`: reject a nil next handler, then run the option setters over the
zero-valued handler with `next` installed. -/
def New (next : Option Unit) (setters : List OptSetter) :
    Except String HTTPConnectHandler :=
  match next with
  | none => Except.error "Next handler is not defined (nil)"
  | some _ => applySetters { next := next, idleTimeout := 0, allowedPorts := [] } setters

/-! ## Request handling as an event trace -/

/-- Observable actions of the handler on one request. -/
inductive Event where
  /-- `f.next.ServeHTTP(w, req)` with the request's method and host. -/
  | delegateNext (method : String) (host : List Char)
  /-- `ServeError`: write the status code and the reason body. -/
  | serveError (status : Nat) (reason : String)
  /-- The success response written by `utils.RespondOK` before the hijack. -/
  | respondOK
  /-- `w.(http.Hijacker).Hijack()` is attempted. -/
  | hijackAttempt
  /-- An error response written by a `utils` helper (status, description). -/
  | respondError (status : Nat) (desc : String)
  /-- An error is logged (`op.Errorf` / `log`). -/
  | logError (what : String)
  /-- `net.DialTimeout("tcp", host, 10s)` is attempted. -/
  | dialAttempt (host : List Char)
  /-- `clientConn.Close()` inside `closeConns`. -/
  | closeClientConn
  /-- `connOut.Close()` inside `closeConns`. -/
  | closeConnOut
  /-- The bidirectional relay runs (both copy loops). -/
  | relayPhase
deriving DecidableEq, Repr

/-- Go `ServeError`: respond with the given status code and reason body. -/
def ServeError (statusCode : Nat) (reason : String) : Event :=
  Event.serveError statusCode reason

/-- Modelled from the spec: the repository's `utils.RespondOK` helper (package
`utils`, not under src/) writes the success response confirming the tunnel,
a 2xx status with no body. -/
def RespondOK : Event := Event.respondOK

/-- Modelled from the spec: the repository's `utils.RespondBadGateway` helper
(package `utils`, not under src/) responds with a Bad Gateway (502) condition
and the given description. -/
def RespondBadGateway (desc : String) : Event :=
  Event.respondError 502 desc

/-- The allow-list scan loop of `portAllowed`:
`for _, p := range allowedPorts { if port == p { return true } }`. -/
def portInList (port : Int) : List Int → Bool
  | [] => false
  | p :: rest => if port = p then true else portInList port rest

/-- Go `portAllowed`: authorization decision together with the events
(`ServeError` responses) it emits. -/
def portAllowed (f : HTTPConnectHandler) (host : List Char) : Bool × List Event :=
  if f.allowedPorts.length = 0 then (true, [])
  else
    match splitHostPort host with
    | Except.error _ =>
      (false, [ServeError 400 "No port field in Request-URI / Host header"])
    | Except.ok hp =>
      match goAtoi hp.2 with
      | Except.error _ => (false, [ServeError 400 "Invalid port"])
      | Except.ok port =>
        if portInList port f.allowedPorts then (true, [])
        else (false, [ServeError 403 "Port not allowed"])

/-- Go `intercept` as an event trace. `hijackOk` is the outcome of
`w.(http.Hijacker).Hijack()`, `dialOk` of `net.DialTimeout`; on success of
both, the relay runs and `closeConns` closes both connections. -/
def intercept (host : List Char) (hijackOk dialOk : Bool) : List Event :=
  Event.respondOK :: Event.hijackAttempt ::
    (if hijackOk = false then
      [Event.logError "Unable to hijack connection",
       RespondBadGateway "Unable to hijack connection"]
    else
      Event.dialAttempt host ::
        (if dialOk = false then [Event.logError "Unable to dial"]
        else [Event.relayPhase, Event.closeClientConn, Event.closeConnOut]))

/-- Go `ServeHTTP`: non-CONNECT requests are delegated to the next handler;
CONNECT requests are authorized by `portAllowed` and then intercepted. -/
def ServeHTTP (f : HTTPConnectHandler) (method : String) (host : List Char)
    (hijackOk dialOk : Bool) : List Event :=
  if method ≠ "CONNECT" then [Event.delegateNext method host]
  else
    let pa := portAllowed f host
    if pa.1 then pa.2 ++ intercept host hijackOk dialOk else pa.2

/-! ## The relay phase of `intercept` as a transition system

Once the hijack and the outbound dial have both succeeded, `intercept` runs
two concurrent copy loops: the upload copy in a spawned task
(`op.Go(func() { ...; readFinished.Done() })`) and the download copy on the
calling path, which then executes `readFinished.Wait()` followed by
`closeConns()` (close `clientConn`, then close `connOut`). The interleaving
of the two tasks is modelled as a small-step relation on a session state. -/

/-- Program counter of the spawned upload task: still inside
`io.CopyBuffer(connOut, clientConn, buf)`, or returned (with
`readFinished.Done()` executed). -/
inductive UpPC where
  | copying
  | done
deriving DecidableEq, Repr

/-- Program counter of the calling path: inside
`io.CopyBuffer(clientConn, connOut, buf)`; blocked in `readFinished.Wait()`;
past the wait; past `clientConn.Close()`; past `connOut.Close()`. -/
inductive CallPC where
  | copying
  | waiting
  | afterWait
  | afterCloseClient
  | finished
deriving DecidableEq, Repr

/-- State of one relay session: the two program counters, the
`readFinished` wait-group counter, the number of `Close` calls issued on
`clientConn` and on `connOut`, and the logged outcome of each copy
(`none` while the copy is still running, `some b` once it returned with
`b` recording whether an error was logged). -/
structure RelayState where
  up : UpPC
  call : CallPC
  wg : Nat
  clientCloses : Nat
  outCloses : Nat
  upErr : Option Bool
  downErr : Option Bool
deriving DecidableEq, Repr

/-- Initial state of the relay phase: both copies running,
`readFinished.Add(1)` done, no connection closed. -/
def initRelay : RelayState :=
  { up := UpPC.copying, call := CallPC.copying, wg := 1,
    clientCloses := 0, outCloses := 0, upErr := none, downErr := none }

/-- One interleaved step of the relay session. The upload copy may return
with or without an error (`e`), logging it and signalling `Done`; the
download copy likewise; `Wait` returns only when the wait-group counter is
zero; then the two closes run in order. -/
inductive Step : RelayState → RelayState → Prop
  | upDone (e : Bool) (c : CallPC) (w cc oc : Nat) (d : Option Bool) :
      Step ⟨UpPC.copying, c, w, cc, oc, none, d⟩
        ⟨UpPC.done, c, w - 1, cc, oc, some e, d⟩
  | downReturn (e : Bool) (u : UpPC) (w cc oc : Nat) (p : Option Bool) :
      Step ⟨u, CallPC.copying, w, cc, oc, p, none⟩
        ⟨u, CallPC.waiting, w, cc, oc, p, some e⟩
  | waitReturn (u : UpPC) (cc oc : Nat) (p d : Option Bool) :
      Step ⟨u, CallPC.waiting, 0, cc, oc, p, d⟩
        ⟨u, CallPC.afterWait, 0, cc, oc, p, d⟩
  | closeClient (u : UpPC) (w cc oc : Nat) (p d : Option Bool) :
      Step ⟨u, CallPC.afterWait, w, cc, oc, p, d⟩
        ⟨u, CallPC.afterCloseClient, w, cc + 1, oc, p, d⟩
  | closeOut (u : UpPC) (w cc oc : Nat) (p d : Option Bool) :
      Step ⟨u, CallPC.afterCloseClient, w, cc, oc, p, d⟩
        ⟨u, CallPC.finished, w, cc, oc + 1, p, d⟩

/-- Reachable states of the relay phase. -/
inductive Reach : RelayState → Prop
  | init : Reach initRelay
  | step {s t : RelayState} : Reach s → Step s t → Reach t

/-- Wait-group counter implied by the upload task's program counter. -/
def wgOf : UpPC → Nat
  | UpPC.copying => 1
  | UpPC.done => 0

/-- Whether the calling path is past `readFinished.Wait()`. -/
def pastWait : CallPC → Bool
  | CallPC.afterWait => true
  | CallPC.afterCloseClient => true
  | CallPC.finished => true
  | _ => false

/-- Number of `clientConn.Close()` calls implied by the calling path's
program counter. -/
def clientClosesOf : CallPC → Nat
  | CallPC.afterCloseClient => 1
  | CallPC.finished => 1
  | _ => 0

/-- Number of `connOut.Close()` calls implied by the calling path's
program counter. -/
def outClosesOf : CallPC → Nat
  | CallPC.finished => 1
  | _ => 0

/-- Inductive invariant of the relay session. -/
def RelayInv (s : RelayState) : Prop :=
  s.wg = wgOf s.up
    ∧ (pastWait s.call = true → s.up = UpPC.done)
    ∧ s.clientCloses = clientClosesOf s.call
    ∧ s.outCloses = outClosesOf s.call
    ∧ (s.upErr = none ↔ s.up = UpPC.copying)
    ∧ (s.downErr = none ↔ s.call = CallPC.copying)

theorem reach_inv {s : RelayState} (h : Reach s) : RelayInv s := by
  induction h with
  | init =>
    simp [RelayInv, initRelay, wgOf, pastWait, clientClosesOf, outClosesOf]
  | step _ hs ih =>
    cases hs with
    | upDone e c w cc oc d =>
      obtain ⟨h1, h2, h3, h4, h5, h6⟩ := ih
      refine ⟨by simp [wgOf] at h1 ⊢; omega, fun _ => rfl, h3, h4, by simp, ?_⟩
      simpa using h6
    | downReturn e u w cc oc p =>
      obtain ⟨h1, h2, h3, h4, h5, h6⟩ := ih
      refine ⟨h1, by simp [pastWait], ?_, ?_, ?_, by simp⟩
      · simpa [clientClosesOf] using h3
      · simpa [outClosesOf] using h4
      · simpa using h5
    | waitReturn u cc oc p d =>
      obtain ⟨h1, h2, h3, h4, h5, h6⟩ := ih
      have hu : u = UpPC.done := by
        cases u
        · simp [wgOf] at h1
        · rfl
      refine ⟨h1, fun _ => hu, ?_, ?_, ?_, ?_⟩
      · simpa [clientClosesOf] using h3
      · simpa [outClosesOf] using h4
      · simpa using h5
      · simpa using h6
    | closeClient u w cc oc p d =>
      obtain ⟨h1, h2, h3, h4, h5, h6⟩ := ih
      have hu : u = UpPC.done := h2 (by simp [pastWait])
      refine ⟨h1, fun _ => hu, ?_, ?_, ?_, ?_⟩
      · simp [clientClosesOf] at h3 ⊢; omega
      · simpa [outClosesOf] using h4
      · simpa using h5
      · simpa using h6
    | closeOut u w cc oc p d =>
      obtain ⟨h1, h2, h3, h4, h5, h6⟩ := ih
      have hu : u = UpPC.done := h2 (by simp [pastWait])
      refine ⟨h1, fun _ => hu, ?_, ?_, ?_, ?_⟩
      · simp [clientClosesOf] at h3 ⊢; omega
      · simp [outClosesOf] at h4 ⊢; omega
      · simpa using h5
      · simpa using h6

/-- C1: for every CONNECT session that has reached the relay phase, in every
reachable interleaving state of the relay: if either connection has received
a `Close` call then the upload copy task has signalled completion (the
wait-group counter is zero) and the download copy on the calling path has
returned; each of `clientConn` and `connOut` is closed at most once; and in
every terminal state (no step remains, whichever direction failed first or
whether both succeeded) both connections are closed exactly once by the
relay's teardown. -/
theorem relay_teardown_once_after_both (s : RelayState) (h : Reach s) :
    ((0 < s.clientCloses ∨ 0 < s.outCloses) →
        s.up = UpPC.done ∧ s.wg = 0
          ∧ s.call ≠ CallPC.copying ∧ s.call ≠ CallPC.waiting)
      ∧ s.clientCloses ≤ 1 ∧ s.outCloses ≤ 1
      ∧ ((∀ t, ¬ Step s t) → s.clientCloses = 1 ∧ s.outCloses = 1) := by
  obtain ⟨h1, h2, h3, h4, h5, h6⟩ := reach_inv h
  obtain ⟨u, c, w, cc, oc, p, d⟩ := s
  simp only at h1 h2 h3 h4 h5 h6 ⊢
  cases u <;> cases c <;>
    simp_all [wgOf, pastWait, clientClosesOf, outClosesOf]
  · exact ⟨_, Step.upDone true _ _ _ _ _⟩
  · exact ⟨_, Step.upDone true _ _ _ _ _⟩
  · exact ⟨_, Step.downReturn true _ _ _ _ _⟩
  · exact ⟨_, Step.waitReturn _ _ _ _ _⟩
  · exact ⟨_, Step.closeClient _ _ _ _ _ _⟩
  · exact ⟨_, Step.closeOut _ _ _ _ _ _⟩

/-- Witness for C1: the fully torn-down state is reachable by a concrete
interleaving, is terminal, and has both connections closed exactly once. -/
theorem relay_teardown_once_after_both_witness :
    Reach ⟨UpPC.done, CallPC.finished, 0, 1, 1, some false, some false⟩
      ∧ (⟨UpPC.done, CallPC.finished, 0, 1, 1, some false, some false⟩ :
          RelayState).clientCloses = 1
      ∧ (⟨UpPC.done, CallPC.finished, 0, 1, 1, some false, some false⟩ :
          RelayState).outCloses = 1 := by
  have hr : Reach ⟨UpPC.done, CallPC.finished, 0, 1, 1, some false, some false⟩ :=
    Reach.step
      (Reach.step
        (Reach.step
          (Reach.step
            (Reach.step Reach.init (Step.upDone false CallPC.copying 1 0 0 none))
            (Step.downReturn false UpPC.done 0 0 0 (some false)))
          (Step.waitReturn UpPC.done 0 0 (some false) (some false)))
        (Step.closeClient UpPC.done 0 0 0 (some false) (some false)))
      (Step.closeOut UpPC.done 0 1 0 (some false) (some false))
  refine ⟨hr, ?_⟩
  have hterm : ∀ t, ¬ Step
      (⟨UpPC.done, CallPC.finished, 0, 1, 1, some false, some false⟩ : RelayState) t :=
    fun _ hstep => nomatch hstep
  exact (relay_teardown_once_after_both _ hr).2.2.2 hterm

/-- The allow-list scan returns true exactly for members of the list. -/
theorem portInList_iff_mem (port : Int) (l : List Int) :
    portInList port l = true ↔ port ∈ l := by
  induction l with
  | nil => simp [portInList]
  | cons p rest ih => by_cases hp : port = p <;> simp [portInList, hp, ih]

/-- C4: with an empty allowed-ports list, `portAllowed` authorizes every
CONNECT request — whatever the host field holds and whether or not it parses
as host:port — and `ServeHTTP` proceeds straight to the intercept phase. -/
theorem portAllowed_empty_allows_all (nx : Option Unit) (it : Int)
    (host : List Char) (hijackOk dialOk : Bool) :
    portAllowed ⟨nx, it, []⟩ host = (true, [])
      ∧ ServeHTTP ⟨nx, it, []⟩ "CONNECT" host hijackOk dialOk
          = intercept host hijackOk dialOk := by
  constructor
  · simp [portAllowed]
  · simp [ServeHTTP, portAllowed]

/-- C5: for every request whose method is not CONNECT, `ServeHTTP` only
delegates to the next handler, passing the request through unmodified, with
no hijack, dial, relay, or any other event. -/
theorem ServeHTTP_non_connect_delegates (f : HTTPConnectHandler)
    (method : String) (host : List Char) (hijackOk dialOk : Bool)
    (h : method ≠ "CONNECT") :
    ServeHTTP f method host hijackOk dialOk
      = [Event.delegateNext method host] := by
  simp [ServeHTTP, h]

/-- Witness for C5 at a concrete GET request. -/
theorem ServeHTTP_non_connect_delegates_witness :
    ("GET" : String) ≠ "CONNECT"
      ∧ ServeHTTP ⟨some (), 0, [443]⟩ "GET" ("example.com:80".toList) true true
          = [Event.delegateNext "GET" ("example.com:80".toList)] :=
  ⟨by decide, ServeHTTP_non_connect_delegates _ _ _ _ _ (by decide)⟩

/-- C6: when the hijack fails, `intercept` logs, responds with the Bad
Gateway (502) condition, and stops: no outbound dial is attempted and no
relay runs. -/
theorem intercept_hijack_failure_no_dial (host : List Char) (dialOk : Bool) :
    intercept host false dialOk
        = [Event.respondOK, Event.hijackAttempt,
           Event.logError "Unable to hijack connection",
           RespondBadGateway "Unable to hijack connection"]
      ∧ RespondBadGateway "Unable to hijack connection"
          = Event.respondError 502 "Unable to hijack connection"
      ∧ (∀ h, Event.dialAttempt h ∉ intercept host false dialOk)
      ∧ Event.relayPhase ∉ intercept host false dialOk := by
  refine ⟨by simp [intercept], rfl, ?_, ?_⟩ <;>
    simp [intercept, RespondBadGateway]

/-- C7: when the hijack succeeds but the dial fails, `intercept` just logs
and returns: no relay, no HTTP error response of any status, and the
hijacked client connection is not closed by the handler. -/
theorem intercept_dial_failure_silent (host : List Char) :
    intercept host true false
        = [Event.respondOK, Event.hijackAttempt, Event.dialAttempt host,
           Event.logError "Unable to dial"]
      ∧ Event.relayPhase ∉ intercept host true false
      ∧ Event.closeClientConn ∉ intercept host true false
      ∧ Event.closeConnOut ∉ intercept host true false
      ∧ (∀ st r, Event.serveError st r ∉ intercept host true false)
      ∧ (∀ st ds, Event.respondError st ds ∉ intercept host true false) := by
  refine ⟨by simp [intercept], ?_, ?_, ?_, ?_, ?_⟩ <;>
    simp [intercept, RespondBadGateway]

/-- C9: `New` with a nil next handler fails with the construction error and
returns no handler, whatever option setters are supplied. -/
theorem New_nil_next_fails (setters : List OptSetter) :
    New none setters = Except.error "Next handler is not defined (nil)"
      ∧ ∀ fh, New none setters ≠ Except.ok fh := by
  refine ⟨rfl, fun fh h => ?_⟩
  simp [New] at h

/-- C10: the empty comma-separated string splits into one empty field, which
`strconv.Atoi` rejects, so configuring ports from an empty CSV fails
construction; only omitting the option or installing an explicitly empty
integer list yields a handler whose empty allow-list admits every port. -/
theorem empty_csv_fails_construction :
    splitOnComma [] = [[]]
      ∧ (∃ e, goAtoi [] = Except.error e)
      ∧ (∃ e, New (some ()) [AllowedPortsFromCSV []] = Except.error e)
      ∧ (∀ nx it host, portAllowed ⟨nx, it, []⟩ host = (true, []))
      ∧ New (some ()) [] = Except.ok ⟨some (), 0, []⟩
      ∧ New (some ()) [AllowedPorts []] = Except.ok ⟨some (), 0, []⟩ := by
  refine ⟨rfl, ⟨_, rfl⟩, ⟨_, rfl⟩, ?_, rfl, rfl⟩
  intro nx it host
  simp [portAllowed]

/-- C2: with a non-empty allow-list and a target that parses as host:port
with a numeric port, authorization succeeds exactly when the parsed port is
integer-equal to some list entry; on a non-matching port the handler emits a
Forbidden (403) response with a short reason body and `ServeHTTP` performs
nothing else (no tunnel). -/
theorem portAllowed_nonempty_matches_iff (f : HTTPConnectHandler)
    (host : List Char) (hp : List Char × List Char) (n : Int)
    (hne : f.allowedPorts ≠ [])
    (hs : splitHostPort host = Except.ok hp)
    (ha : goAtoi hp.2 = Except.ok n) :
    (portAllowed f host = (true, []) ↔ n ∈ f.allowedPorts)
      ∧ (n ∉ f.allowedPorts →
          portAllowed f host = (false, [ServeError 403 "Port not allowed"])
            ∧ ∀ hijackOk dialOk,
                ServeHTTP f "CONNECT" host hijackOk dialOk
                  = [ServeError 403 "Port not allowed"]) := by
  have hlen : ¬ f.allowedPorts.length = 0 := by simpa using hne
  have hpa : portAllowed f host
      = if portInList n f.allowedPorts then (true, [])
        else (false, [ServeError 403 "Port not allowed"]) := by
    simp [portAllowed, hlen, hs, ha]
  by_cases hm : n ∈ f.allowedPorts
  · have hb : portInList n f.allowedPorts = true :=
      (portInList_iff_mem n f.allowedPorts).mpr hm
    exact ⟨by simp [hpa, hb, hm], fun hnot => absurd hm hnot⟩
  · have hb : portInList n f.allowedPorts = false := by
      rw [Bool.eq_false_iff]
      intro hc
      exact hm ((portInList_iff_mem n f.allowedPorts).mp hc)
    refine ⟨by simp [hpa, hb, hm, ServeError], fun _ => ⟨by simp [hpa, hb], ?_⟩⟩
    intro hijackOk dialOk
    simp [ServeHTTP, hpa, hb]

/-- Witness for C2 at the spec's examples: allow-list `[443, 8443]`, target
`example.com:443` authorized, target `example.com:80` rejected with 403. -/
theorem portAllowed_nonempty_matches_iff_witness :
    portAllowed ⟨some (), 0, [443, 8443]⟩ ("example.com:443".toList) = (true, [])
      ∧ portAllowed ⟨some (), 0, [443, 8443]⟩ ("example.com:80".toList)
          = (false, [ServeError 403 "Port not allowed"]) := by
  constructor
  · exact (portAllowed_nonempty_matches_iff ⟨some (), 0, [443, 8443]⟩
      ("example.com:443".toList) ("example.com".toList, "443".toList) 443
      (by decide) rfl rfl).1.mpr (by decide)
  · exact ((portAllowed_nonempty_matches_iff ⟨some (), 0, [443, 8443]⟩
      ("example.com:80".toList) ("example.com".toList, "80".toList) 80
      (by decide) rfl rfl).2 (by decide)).1

/-- C3: with a non-empty allow-list, a target that fails host:port splitting
yields a Bad Request (400) with the missing-port message, and a target whose
port field is non-numeric yields a Bad Request (400) with the invalid-port
message; in both cases `ServeHTTP` emits only that response (no tunnel). -/
theorem portAllowed_parse_failure_bad_request (f : HTTPConnectHandler)
    (host : List Char) (hne : f.allowedPorts ≠ []) :
    ((∃ e, splitHostPort host = Except.error e) →
        portAllowed f host
            = (false, [ServeError 400 "No port field in Request-URI / Host header"])
          ∧ ∀ hijackOk dialOk,
              ServeHTTP f "CONNECT" host hijackOk dialOk
                = [ServeError 400 "No port field in Request-URI / Host header"])
      ∧ (∀ hp, splitHostPort host = Except.ok hp →
          (∃ e, goAtoi hp.2 = Except.error e) →
            portAllowed f host = (false, [ServeError 400 "Invalid port"])
              ∧ ∀ hijackOk dialOk,
                  ServeHTTP f "CONNECT" host hijackOk dialOk
                    = [ServeError 400 "Invalid port"]) := by
  have hlen : ¬ f.allowedPorts.length = 0 := by simpa using hne
  constructor
  · rintro ⟨e, he⟩
    have hpa : portAllowed f host
        = (false, [ServeError 400 "No port field in Request-URI / Host header"]) := by
      simp [portAllowed, hlen, he]
    exact ⟨hpa, fun hijackOk dialOk => by simp [ServeHTTP, hpa]⟩
  · rintro hp hsp ⟨e, he⟩
    have hpa : portAllowed f host = (false, [ServeError 400 "Invalid port"]) := by
      simp [portAllowed, hlen, hsp, he]
    exact ⟨hpa, fun hijackOk dialOk => by simp [ServeHTTP, hpa]⟩

/-- Witness for C3 at the spec's examples: `example.com` (no port) gets the
missing-port 400, `example.com:abc` gets the invalid-port 400. -/
theorem portAllowed_parse_failure_bad_request_witness :
    portAllowed ⟨some (), 0, [443]⟩ ("example.com".toList)
        = (false, [ServeError 400 "No port field in Request-URI / Host header"])
      ∧ portAllowed ⟨some (), 0, [443]⟩ ("example.com:abc".toList)
          = (false, [ServeError 400 "Invalid port"]) := by
  constructor
  · exact ((portAllowed_parse_failure_bad_request ⟨some (), 0, [443]⟩
      ("example.com".toList) (by decide)).1 ⟨"missing port in address", rfl⟩).1
  · exact ((portAllowed_parse_failure_bad_request ⟨some (), 0, [443]⟩
      ("example.com:abc".toList) (by decide)).2
      ("example.com".toList, "abc".toList) rfl ⟨"invalid syntax", rfl⟩).1

/-- A successful field conversion relates the fields pointwise to the parsed
ports. -/
theorem parsePortFields_ok_forall2 {flds : List (List Char)} {ps : List Int}
    (h : parsePortFields flds = Except.ok ps) :
    List.Forall₂ (fun fld p => goAtoi fld = Except.ok p) flds ps := by
  induction flds generalizing ps with
  | nil =>
    simp [parsePortFields] at h
    simp [← h]
  | cons fld rest ih =>
    rw [parsePortFields] at h
    cases ha : goAtoi fld with
    | error e => simp [ha] at h
    | ok p =>
      rw [ha] at h
      cases hr : parsePortFields rest with
      | error e => simp [hr] at h
      | ok qs =>
        rw [hr] at h
        simp at h
        subst h
        exact List.Forall₂.cons ha (ih hr)

/-- If any field is non-numeric, the field conversion loop fails. -/
theorem parsePortFields_error_of_mem {flds : List (List Char)}
    {fld : List Char} (hm : fld ∈ flds) {e : String}
    (he : goAtoi fld = Except.error e) :
    ∃ e2, parsePortFields flds = Except.error e2 := by
  induction flds with
  | nil => cases hm
  | cons a rest ih =>
    cases hm with
    | head => exact ⟨e, by rw [parsePortFields, he]⟩
    | tail _ hm2 =>
      cases hga : goAtoi a with
      | error e3 => exact ⟨e3, by rw [parsePortFields, hga]⟩
      | ok p =>
        obtain ⟨e2, h2⟩ := ih hm2
        exact ⟨e2, by rw [parsePortFields, hga, h2]⟩

/-- C8: constructing the handler with the CSV allow-list option fails when
any comma-separated entry is non-numeric, and on success the handler's
allow-list is exactly the integers parsed from the fields, in order. -/
theorem New_AllowedPortsFromCSV_spec (csv : List Char) :
    (∀ fh, New (some ()) [AllowedPortsFromCSV csv] = Except.ok fh →
        List.Forall₂ (fun fld p => goAtoi fld = Except.ok p)
          (splitOnComma csv) fh.allowedPorts)
      ∧ ((∃ fld ∈ splitOnComma csv, ∃ e, goAtoi fld = Except.error e) →
          ∃ e, New (some ()) [AllowedPortsFromCSV csv] = Except.error e) := by
  constructor
  · intro fh hok
    cases hpf : parsePortFields (splitOnComma csv) with
    | error e => simp [New, applySetters, AllowedPortsFromCSV, hpf] at hok
    | ok ps =>
      have hfh : fh = { next := some (), idleTimeout := 0, allowedPorts := ps } := by
        simp [New, applySetters, AllowedPortsFromCSV, hpf] at hok
        exact hok.symm
      subst hfh
      exact parsePortFields_ok_forall2 hpf
  · rintro ⟨fld, hm, e, he⟩
    obtain ⟨e2, h2⟩ := parsePortFields_error_of_mem hm he
    exact ⟨e2, by simp [New, applySetters, AllowedPortsFromCSV, h2]⟩

/-- Witness for C8: `443,8443` constructs the allow-list `[443, 8443]`;
`443,abc` fails construction. -/
theorem New_AllowedPortsFromCSV_spec_witness :
    List.Forall₂ (fun fld p => goAtoi fld = Except.ok p)
        (splitOnComma ("443,8443".toList)) [(443 : Int), 8443]
      ∧ ∃ e, New (some ()) [AllowedPortsFromCSV ("443,abc".toList)]
          = Except.error e := by
  constructor
  · exact (New_AllowedPortsFromCSV_spec ("443,8443".toList)).1
      ⟨some (), 0, [443, 8443]⟩ rfl
  · exact (New_AllowedPortsFromCSV_spec ("443,abc".toList)).2
      ⟨"abc".toList, by decide, "invalid syntax", rfl⟩

end HttpConnect
